import Mathlib

/-!
# protoc-gen-swagger: the plugin request orchestrator

A shallow embedding of `main.go` (and of the `SRegistry` record of
`genswagger/registry.go`).  Go strings are Lean strings; the three characters
the program looks for (`,`, `=`, `M`) are ASCII, so on UTF-8 text cutting at
bytes and cutting at characters agree.

In-place mutation of `*flag.FlagSet` and of `map[string]string` is made
explicit: a function that mutates its arguments returns their new values.
An `error` is its message, `nil` is `none`.

The functions of the Go standard library that `main.go` calls (`strings`,
`strconv`, `flag`) are written out after their Go sources.  Of a flag set only
what `Set` reads and writes is kept; a flag is a boolean flag, a string flag
(the two kinds that `main.go` registers) or a flag of another type with a
`Set` method of its own.  Logging through `glog` is left out, except that
`glog.Fatal` ends the process.
-/

namespace ProtocGenSwagger

/-! ## Go library functions used by `parseReqParam` -/

namespace strings

/-- Cut a character list at every occurrence of `sep`; the pieces of
`strings.Split` for a one-character separator.  There is always at least one
piece. -/
def splitChars (sep : Char) : List Char → List (List Char)
  | [] => [[]]
  | c :: cs =>
    if c = sep then [] :: splitChars sep cs
    else
      match splitChars sep cs with
      | [] => [[c]]
      | t :: ts => (c :: t) :: ts

/-- Cut a character list at the first occurrence of `sep`, if there is one:
what is before it and what is after it. -/
def cutChars (sep : Char) : List Char → Option (List Char × List Char)
  | [] => none
  | c :: cs =>
    if c = sep then some ([], cs)
    else
      match cutChars sep cs with
      | none => none
      | some (a, b) => some (c :: a, b)

/-- Pieces of `strings.SplitN` on character lists: at most `n` pieces, the
last one being the unsplit remainder; no piece at all for `n = 0`. -/
def splitNChars (sep : Char) : Nat → List Char → List (List Char)
  | 0, _ => []
  | 1, s => [s]
  | n + 2, s =>
    match cutChars sep s with
    | none => [s]
    | some (a, b) => a :: splitNChars sep (n + 1) b

/-- Go `strings.Split(s, sep)` with a one-character separator. -/
def Split (s : String) (sep : Char) : List String :=
  (splitChars sep s.data).map String.mk

/-- Go `strings.SplitN(s, sep, n)` with a one-character separator and
`n ≥ 0`. -/
def SplitN (s : String) (sep : Char) (n : Nat) : List String :=
  (splitNChars sep n s.data).map String.mk

/-- Go `strings.HasPrefix(s, p)` with a one-character `p`. -/
def HasPrefix (s : String) (p : Char) : Bool :=
  match s.data with
  | [] => false
  | c :: _ => c == p

end strings

/-- Go `s[1:]` on a string whose first byte is an ASCII character. -/
def sliceFrom1 (s : String) : String := String.mk (s.data.drop 1)

namespace strconv

/-- Go `strconv.ParseBool`: the twelve accepted spellings, anything else is an
error (`none`). -/
def ParseBool (s : String) : Option Bool :=
  if s = "1" ∨ s = "t" ∨ s = "T" ∨ s = "TRUE" ∨ s = "true" ∨ s = "True" then some true
  else if s = "0" ∨ s = "f" ∨ s = "F" ∨ s = "FALSE" ∨ s = "false" ∨ s = "False" then some false
  else none

end strconv

namespace flag

/-- A `flag.Value` with its current value: the two implementations behind the
flags that `main.go` registers (`flag.Bool` and `flag.String`), and a value of
any other type (such as the ones package `glog` registers), of which only the
state is kept here. -/
inductive Value where
  | boolValue (b : Bool)
  | stringValue (s : String)
  | otherValue (state : String)
  deriving DecidableEq, Repr

/-- Go `(*boolValue).Set` and `(*stringValue).Set`.  The boolean setter is
`v, err := strconv.ParseBool(s); if err != nil { err = errParse };
*b = boolValue(v); return err`: it stores the parsed value also when parsing
failed, and that value is then `false`.  The string setter cannot fail.  A
value of another type has its own `Set` method, `setOther`, which takes its
state and the argument to its new state and an error or `nil`. -/
def Value.Set (setOther : String → String → String × Option String) :
    Value → String → Value × Option String
  | .boolValue _, s =>
    match strconv.ParseBool s with
    | some b => (.boolValue b, none)
    | none => (.boolValue false, some "parse error")
  | .stringValue _, s => (.stringValue s, none)
  | .otherValue st, s => (.otherValue (setOther st s).1, (setOther st s).2)

/-- Go `flag.FlagSet`: `formal` maps the name of each registered flag to its
value, `actual` records the flags that have been set.  For a flag whose value
is of another type than boolean or string, `setOther name` is the `Set` method
of that value. -/
structure FlagSet where
  formal : String → Option Value
  actual : String → Bool
  setOther : String → String → String → String × Option String

/-- Go `(*FlagSet).Set(name, value)`: an unregistered name is an error and
changes nothing; otherwise the flag's own setter runs, and only when it
succeeds is the flag recorded in `actual`. -/
def FlagSet.Set (f : FlagSet) (name value : String) : FlagSet × Option String :=
  match f.formal name with
  | none => (f, some ("no such flag -" ++ name))
  | some v =>
    match v.Set (f.setOther name) value with
    | (v', some err) => ({ f with formal := Function.update f.formal name (some v') }, some err)
    | (v', none) =>
      ({ f with formal := Function.update f.formal name (some v'),
                actual := Function.update f.actual name true }, none)

end flag

/-- Go `map[string]string`, as the partial function it denotes. -/
abbrev PkgMap := String → Option String

/-- The result of a call that mutates the flag set and the package map in
place and returns an `error`. -/
structure ParseResult where
  f : flag.FlagSet
  pkgMap : PkgMap
  err : Option String

/-- Message of `fmt.Errorf("Cannot set flag %s: %v", p, err)`. -/
def cannotSetFlag (p err : String) : String :=
  "Cannot set flag " ++ p ++ ": " ++ err

/-- One of the bare-name branches of the loop body of `parseReqParam`:
`err := f.Set(name, value); if err != nil { return fmt.Errorf(...) }; continue`. -/
def setFlag (p name value : String) (f : flag.FlagSet) (pkgMap : PkgMap) : ParseResult :=
  match f.Set name value with
  | (f', some err) => ⟨f', pkgMap, some (cannotSetFlag p err)⟩
  | (f', none) => ⟨f', pkgMap, none⟩

/-- The body of the `for` loop of `parseReqParam` for the token `p`.  A result
with `err = none` is `continue`, a result with an error is `return err`.
`spec` has one or two elements; the first case of the `match`, where `spec[0]`
would be out of range, only makes the function total. -/
def parseReqParamStep (p : String) (f : flag.FlagSet) (pkgMap : PkgMap) : ParseResult :=
  match strings.SplitN p '=' 2 with
  | [] => ⟨f, pkgMap, some "runtime error: index out of range"⟩
  | [s0] =>
    if s0 = "allow_delete_body" then setFlag p s0 "true" f pkgMap
    else if s0 = "allow_merge" then setFlag p s0 "true" f pkgMap
    else if s0 = "allow_save" then setFlag p s0 "true" f pkgMap
    else if s0 = "wrap_code" then setFlag p s0 "true" f pkgMap
    else if s0 = "allow_repeated_fields_in_body" then setFlag p s0 "true" f pkgMap
    else if s0 = "include_package_in_tags" then setFlag p s0 "true" f pkgMap
    else setFlag p s0 "" f pkgMap
  | name :: value :: _ =>
    if strings.HasPrefix name 'M' then
      ⟨f, Function.update pkgMap (sliceFrom1 name) (some value), none⟩
    else setFlag p name value f pkgMap

/-- The `for _, p := range strings.Split(param, ",")` loop of `parseReqParam`,
ending with `return nil`. -/
def parseReqParamLoop : List String → flag.FlagSet → PkgMap → ParseResult
  | [], f, pkgMap => ⟨f, pkgMap, none⟩
  | p :: ps, f, pkgMap =>
    match parseReqParamStep p f pkgMap with
    | ⟨f', pkgMap', some err⟩ => ⟨f', pkgMap', some err⟩
    | ⟨f', pkgMap', none⟩ => parseReqParamLoop ps f' pkgMap'

/-- `parseReqParam` of `main.go`. -/
def parseReqParam (param : String) (f : flag.FlagSet) (pkgMap : PkgMap) : ParseResult :=
  if param = "" then ⟨f, pkgMap, none⟩
  else parseReqParamLoop (strings.Split param ',') f pkgMap

/-- The flag name that the loop body of `parseReqParam` hands to `f.Set` for
the token `p`: `spec[0]`, the text before the first `=`. -/
def tokenName (p : String) : String :=
  (strings.SplitN p '=' 2).headD ""

/-- The value that the loop body of `parseReqParam` hands to `f.Set` for the
token `p`: `spec[1]` for a keyed token, `"true"` for a bare token that is one
of the six switch names, `""` for any other bare token. -/
def tokenValue (p : String) : String :=
  match strings.SplitN p '=' 2 with
  | [] => ""
  | [s0] =>
    if s0 = "allow_delete_body" ∨ s0 = "allow_merge" ∨ s0 = "allow_save" ∨ s0 = "wrap_code" ∨
        s0 = "allow_repeated_fields_in_body" ∨ s0 = "include_package_in_tags" then "true"
    else ""
  | _ :: value :: _ => value

/-! ## Flags of `main.go` -/

/-- The flags that `main.go` registers in `flag.CommandLine` (the `var` block
at the top of the file), with their default values, in source order. -/
def registered : List (String × flag.Value) :=
  [("import_prefix", .stringValue ""),
   ("file", .stringValue "-"),
   ("allow_delete_body", .boolValue false),
   ("grpc_api_configuration", .stringValue ""),
   ("allow_merge", .boolValue false),
   ("allow_save", .boolValue false),
   ("yapi_url", .stringValue ""),
   ("yapi_schema", .stringValue ""),
   ("yapi_token", .stringValue ""),
   ("yapi_merge", .stringValue ""),
   ("wrap_code", .boolValue false),
   ("merge_file_name", .stringValue "apidocs"),
   ("json_names_for_fields", .boolValue false),
   ("repeated_path_param_separator", .stringValue "csv"),
   ("version", .boolValue false),
   ("allow_repeated_fields_in_body", .boolValue false),
   ("include_package_in_tags", .boolValue false),
   ("fqn_for_swagger_name", .boolValue false)]

/-- The flags of `main.go` as a flag set, before any command-line argument or
plugin parameter is applied: every flag of `registered` at its default.  This
is the part of `flag.CommandLine` that `main.go` itself registers; in the
running program package `glog` registers seven more flags on it
(`logtostderr`, `alsologtostderr`, `log_dir`, `v`, `vmodule`,
`stderrthreshold`, `log_backtrace_at`), which are not part of this
definition. -/
def mainFlags : flag.FlagSet :=
  { formal := fun name => registered.lookup name, actual := fun _ => false,
    setOther := fun _ st _ => (st, none) }

/-- Dereference of the pointer returned by `flag.String(name, ...)`. -/
def stringFlag (f : flag.FlagSet) (name : String) : String :=
  match f.formal name with
  | some (.stringValue s) => s
  | _ => ""

/-- Dereference of the pointer returned by `flag.Bool(name, ...)`. -/
def boolFlag (f : flag.FlagSet) (name : String) : Bool :=
  match f.formal name with
  | some (.boolValue b) => b
  | _ => false

/-! ## Request and response envelopes -/

namespace plugin

/-- The fields of `plugin.CodeGeneratorRequest` that `main.go` reads;
`Parameter` is a `*string`. -/
structure CodeGeneratorRequest (Proto : Type) where
  FileToGenerate : List String
  Parameter : Option String
  ProtoFile : List Proto

/-- A generated file, `plugin.CodeGeneratorResponse_File`; both fields are
`*string`. -/
structure CodeGeneratorResponse_File where
  Name : Option String
  Content : Option String
  deriving DecidableEq, Repr

/-- The response envelope `plugin.CodeGeneratorResponse`. -/
structure CodeGeneratorResponse where
  Error : Option String
  File : List CodeGeneratorResponse_File
  deriving DecidableEq, Repr

end plugin

namespace genswagger

/-- `SRegistry` of `genswagger/registry.go`; `Reg` is the state of the embedded
`*descriptor.Registry`. -/
structure SRegistry (Reg : Type) where
  Registry : Reg
  wrapRespCode : Bool
  YAPIUrl : String
  YAPISchema : String
  YAPIToken : String
  YAPIMerge : String

/-- `NewRegistry` of `genswagger/registry.go`, given the fresh
`descriptor.NewRegistry()`. -/
def NewRegistry {Reg : Type} (fresh : Reg) : SRegistry Reg :=
  { Registry := fresh, wrapRespCode := false,
    YAPIUrl := "", YAPISchema := "", YAPIToken := "", YAPIMerge := "" }

/-- `SetWrapRespCode` of `genswagger/registry.go`. -/
def SRegistry.SetWrapRespCode {Reg : Type} (sr : SRegistry Reg) (v : Bool) : SRegistry Reg :=
  { sr with wrapRespCode := v }

/-- `GetWrapRespCode` of `genswagger/registry.go`. -/
def SRegistry.GetWrapRespCode {Reg : Type} (sr : SRegistry Reg) : Bool :=
  sr.wrapRespCode

end genswagger

/-! ## Publishing to YAPI -/

/-- The POST request that `sendYAPI` builds for one generated file: the
address, the content type header and the four form fields of the body. -/
structure HttpRequest where
  Method : String
  URL : String
  ContentType : String
  type : String
  token : String
  merge : String
  json : String
  deriving DecidableEq, Repr

/-- What `client.Do` returns: a response (here its body) or `nil`, and an
error or `nil`. -/
structure DoResult where
  resp : Option String
  err : Option String

/-- The HTTP library as seen by `sendYAPI`: whether `http.NewRequest` rejects
an address, and what `client.Do` answers to the `i`-th request sent. -/
structure Http where
  newRequestErr : String → Option String
  Do : Nat → HttpRequest → DoResult

/-- What a run of `sendYAPI` did: the requests handed to `client.Do`, in
order, and whether it ended in a runtime panic instead of returning. -/
structure SendResult where
  posts : List HttpRequest
  panicked : Bool
  deriving DecidableEq, Repr

/-- The `for _, item := range out` loop of `sendYAPI`; `i` counts the requests
sent so far.  A nil `item.Content`, a nil `req` after a failed
`http.NewRequest`, and a nil `resp` after a failed `client.Do` are
dereferenced by the statements that follow them, which panics. -/
def sendYAPILoop (http : Http) (addr token merge : String) :
    Nat → List plugin.CodeGeneratorResponse_File → SendResult
  | _, [] => ⟨[], false⟩
  | i, item :: rest =>
    match item.Content with
    | none => ⟨[], true⟩
    | some content =>
      match http.newRequestErr addr with
      | some _ => ⟨[], true⟩
      | none =>
        let req : HttpRequest :=
          { Method := "POST", URL := addr,
            ContentType := "application/x-www-form-urlencoded",
            type := "swagger", token := token, merge := merge, json := content }
        match (http.Do i req).resp with
        | none => ⟨[req], true⟩
        | some _ =>
          let r := sendYAPILoop http addr token merge (i + 1) rest
          ⟨req :: r.posts, r.panicked⟩

/-- `sendYAPI` of `main.go`. -/
def sendYAPI {Reg : Type} (http : Http) (out : List plugin.CodeGeneratorResponse_File)
    (reg : genswagger.SRegistry Reg) : SendResult :=
  let schema := reg.YAPISchema
  let addr := schema ++ "://" ++ reg.YAPIUrl ++ "/api/open/import_data"
  let token := reg.YAPIToken
  let merge := reg.YAPIMerge
  if addr.length = 0 ∨ token.length = 0 ∨ merge.length = 0 then ⟨[], false⟩
  else sendYAPILoop http addr token merge 0 out

/-! ## The orchestrator `main` -/

/-- How the process ends: `main` returns (status 0), `os.Exit(0)`,
`glog.Fatal`/`glog.Fatalf` (the message is logged and the process is
terminated with a non-zero status), or a runtime panic. -/
inductive Exit where
  | returned
  | exit0
  | fatal (msg : String)
  | panicked
  deriving DecidableEq, Repr

/-- Whether the process ends with status 0. -/
def Exit.clean : Exit → Bool
  | .returned => true
  | .exit0 => true
  | .fatal _ => false
  | .panicked => false

/-- Something written to standard output: the version line, or an encoded
response envelope. -/
inductive Output where
  | text (s : String)
  | envelope (resp : plugin.CodeGeneratorResponse)
  deriving DecidableEq, Repr

/-- Everything outside `main.go` that a run of `main` depends on: the flag set
`flag.CommandLine` after `flag.Parse()`, the input, the descriptor registry and the generator of
package `genswagger`, the encoder, standard output and the HTTP client.
`Reg` is the state of a `descriptor.Registry`, `Desc` a `*descriptor.File`,
`Proto` a file descriptor of the request. -/
structure Env (Reg Desc Proto : Type) where
  flags : flag.FlagSet
  openErr : String → Option String
  ParseRequest : String → Except String (plugin.CodeGeneratorRequest Proto)
  newRegistry : Reg
  SetPrefix : Reg → String → Reg
  SetAllowDeleteBody : Reg → Bool → Reg
  SetAllowMerge : Reg → Bool → Reg
  SetMergeFileName : Reg → String → Reg
  SetUseJSONNamesForFields : Reg → Bool → Reg
  SetAllowRepeatedFieldsInBody : Reg → Bool → Reg
  SetIncludePackageInTags : Reg → Bool → Reg
  SetUseFQNForSwaggerName : Reg → Bool → Reg
  SetRepeatedPathParamSeparator : Reg → String → Except String Reg
  AddPkgMaps : Reg → PkgMap → Reg
  LoadGrpcAPIServiceFromYAML : Reg → String → Except String Reg
  AddStreamError : genswagger.SRegistry Reg → Except String (genswagger.SRegistry Reg)
  Load : Reg → plugin.CodeGeneratorRequest Proto → Except String Reg
  LookupFile : Reg → String → Except String Desc
  Generate : genswagger.SRegistry Reg → List Desc →
    Except String (List plugin.CodeGeneratorResponse_File)
  marshalErr : plugin.CodeGeneratorResponse → Option String
  writeErr : plugin.CodeGeneratorResponse → Option String
  http : Http

/-- The observable behaviour of one run of `main`: what was written to
standard output, the envelopes handed to `emitResp`, the argument of each call
of `g.Generate`, the requests handed to `client.Do`, and how the process
ended. -/
structure Run (Desc : Type) where
  stdout : List Output
  emitted : List plugin.CodeGeneratorResponse
  generated : List (List Desc)
  posts : List HttpRequest
  exit : Exit

/-- A run that ends in `glog.Fatal(msg)` before anything else was observable. -/
def Run.fatal {Desc : Type} (msg : String) : Run Desc :=
  { stdout := [], emitted := [], generated := [], posts := [], exit := .fatal msg }

section
variable {Reg Desc Proto : Type}

/-- `emitResp` of `main.go`, as the rest of the run after the envelope has been
handed over: a failure of `proto.Marshal` or of `os.Stdout.Write` is fatal;
otherwise the envelope is on standard output and `k` continues. -/
def emitResp (env : Env Reg Desc Proto) (generated : List (List Desc))
    (resp : plugin.CodeGeneratorResponse) (k : SendResult) : Run Desc :=
  match env.marshalErr resp with
  | some err =>
    { stdout := [], emitted := [resp], generated := generated, posts := [], exit := .fatal err }
  | none =>
    match env.writeErr resp with
    | some err =>
      { stdout := [], emitted := [resp], generated := generated, posts := [], exit := .fatal err }
    | none =>
      { stdout := [.envelope resp], emitted := [resp], generated := generated,
        posts := k.posts, exit := if k.panicked then .panicked else .returned }

/-- `emitFiles` of `main.go`, followed by what `main` does after it. -/
def emitFiles (env : Env Reg Desc Proto) (generated : List (List Desc))
    (out : List plugin.CodeGeneratorResponse_File) (k : SendResult) : Run Desc :=
  emitResp env generated { Error := none, File := out } k

/-- `emitError` of `main.go`, followed by the `return` of `main`. -/
def emitError (env : Env Reg Desc Proto) (generated : List (List Desc)) (err : String) :
    Run Desc :=
  emitResp env generated { Error := some err, File := [] } ⟨[], false⟩

/-- The loop `for _, target := range req.FileToGenerate` of `main`: the
descriptors found so far are appended to in order; the first target that does
not resolve ends the process with `glog.Fatal`. -/
def lookupTargets (env : Env Reg Desc Proto) (reg : Reg) :
    List String → Except String (List Desc)
  | [] => .ok []
  | target :: rest =>
    match env.LookupFile reg target with
    | .error err => .error err
    | .ok f =>
      match lookupTargets env reg rest with
      | .error err => .error err
      | .ok fs => .ok (f :: fs)

/-- Build-time variables of `main.go` (set by goreleaser), at their defaults. -/
def version : String := "dev"

/-- See `version`. -/
def commit : String := "unknown"

/-- See `version`. -/
def date : String := "unknown"

/-- The start of `main`, up to `codegenerator.ParseRequest`: the version
switch, the choice of the input and its decoding.  Either the run is over
(version printed, or a fatal error) or the decoded request is handed on. -/
def readRequest (env : Env Reg Desc Proto) :
    Except (Run Desc) (plugin.CodeGeneratorRequest Proto) :=
  if boolFlag env.flags "version" then
    .error { stdout := [.text ("Version " ++ version ++ ", commit " ++ commit ++
                                ", built at " ++ date ++ "\n")],
             emitted := [], generated := [], posts := [], exit := .exit0 }
  else
    let file := stringFlag env.flags "file"
    match (if file ≠ "-" then env.openErr file else none) with
    | some err => .error (Run.fatal err)
    | none =>
      match env.ParseRequest file with
      | .error err => .error (Run.fatal err)
      | .ok req => .ok req

/-- The part of `main` that applies the request's parameter string:
`pkgMap := make(map[string]string)`, then `parseReqParam` on
`flag.CommandLine` when `req.Parameter != nil`; an error is
`glog.Fatalf("Error parsing flags: %v, %s", err, *req.Parameter)`. -/
def resolveParam (env : Env Reg Desc Proto) (req : plugin.CodeGeneratorRequest Proto) :
    Except (Run Desc) (flag.FlagSet × PkgMap) :=
  match req.Parameter with
  | none => .ok (env.flags, fun _ => none)
  | some param =>
    let parsed := parseReqParam param env.flags (fun _ => none)
    match parsed.err with
    | some err => .error (Run.fatal ("Error parsing flags: " ++ err ++ ", " ++ param))
    | none => .ok (parsed.f, parsed.pkgMap)

/-- The part of `main` from `reg.YAPISchema = *yapiSchema` to `reg.Load(req)`:
the flag values are written into the registry, the optional YAML file and the
request are loaded.  Each failure here is `emitError(err); return`. -/
def configure (env : Env Reg Desc Proto) (req : plugin.CodeGeneratorRequest Proto)
    (fl : flag.FlagSet) (pkgMap : PkgMap) : Except (Run Desc) (genswagger.SRegistry Reg) :=
  let reg : genswagger.SRegistry Reg := genswagger.NewRegistry env.newRegistry
  let reg := { reg with YAPISchema := stringFlag fl "yapi_schema" }
  let reg := { reg with YAPIUrl := stringFlag fl "yapi_url" }
  let reg := { reg with YAPIToken := stringFlag fl "yapi_token" }
  let reg := { reg with YAPIMerge := stringFlag fl "yapi_merge" }
  let reg := reg.SetWrapRespCode (boolFlag fl "wrap_code")
  let r := env.SetPrefix reg.Registry (stringFlag fl "import_prefix")
  let r := env.SetAllowDeleteBody r (boolFlag fl "allow_delete_body")
  let r := env.SetAllowMerge r (boolFlag fl "allow_merge")
  let r := env.SetMergeFileName r (stringFlag fl "merge_file_name")
  let r := env.SetUseJSONNamesForFields r (boolFlag fl "json_names_for_fields")
  let r := env.SetAllowRepeatedFieldsInBody r (boolFlag fl "allow_repeated_fields_in_body")
  let r := env.SetIncludePackageInTags r (boolFlag fl "include_package_in_tags")
  let r := env.SetUseFQNForSwaggerName r (boolFlag fl "fqn_for_swagger_name")
  match env.SetRepeatedPathParamSeparator r (stringFlag fl "repeated_path_param_separator") with
  | .error err => .error (emitError env [] err)
  | .ok r =>
    let r := env.AddPkgMaps r pkgMap
    let yaml := stringFlag fl "grpc_api_configuration"
    match (if yaml ≠ "" then env.LoadGrpcAPIServiceFromYAML r yaml else .ok r) with
    | .error err => .error (emitError env [] err)
    | .ok r =>
      match env.AddStreamError { reg with Registry := r } with
      | .error err => .error (emitError env [] err)
      | .ok reg =>
        match env.Load reg.Registry req with
        | .error err => .error (emitError env [] err)
        | .ok r => .ok { reg with Registry := r }

/-- The first part of `main`, from `flag.Parse()` to `reg.Load(req)`: either
the run is over, or the request and the configured, loaded registry are handed
on to the resolution of the targets. -/
def mainSetup (env : Env Reg Desc Proto) :
    Except (Run Desc) (plugin.CodeGeneratorRequest Proto × genswagger.SRegistry Reg) :=
  match readRequest env with
  | .error run => .error run
  | .ok req =>
    match resolveParam env req with
    | .error run => .error run
    | .ok (fl, pkgMap) =>
      match configure env req fl pkgMap with
      | .error run => .error run
      | .ok reg => .ok (req, reg)

/-- The second part of `main`: resolve the targets, call the generator once,
emit its files or its error, and publish after a successful emission. -/
def mainGenerate (env : Env Reg Desc Proto) (req : plugin.CodeGeneratorRequest Proto)
    (reg : genswagger.SRegistry Reg) : Run Desc :=
  match lookupTargets env reg.Registry req.FileToGenerate with
  | .error err => Run.fatal err
  | .ok targets =>
    match env.Generate reg targets with
    | .error err => emitError env [targets] err
    | .ok out => emitFiles env [targets] out (sendYAPI env.http out reg)

/-- `main` of `main.go`. -/
def main (env : Env Reg Desc Proto) : Run Desc :=
  match mainSetup env with
  | .error run => run
  | .ok (req, reg) => mainGenerate env req reg

end

/-! ## Concrete environments -/

/-- An HTTP library in which every address is accepted and every request is
answered. -/
def httpUp : Http :=
  { newRequestErr := fun _ => none, Do := fun _ _ => ⟨some "ok", none⟩ }

/-- An HTTP library in which every address is accepted and the first request
fails in the transport (`client.Do` returns a nil response and an error); the
later ones are answered. -/
def httpFirstDown : Http :=
  { newRequestErr := fun _ => none,
    Do := fun i _ => if i = 0 then ⟨none, some "connection refused"⟩ else ⟨some "ok", none⟩ }

/-- A registry with the given publish configuration. -/
def yapiRegistry (schema url token merge : String) : genswagger.SRegistry Unit :=
  { Registry := (), wrapRespCode := false,
    YAPIUrl := url, YAPISchema := schema, YAPIToken := token, YAPIMerge := merge }

/-- A generated file with the given name and content. -/
def genFile (name content : String) : plugin.CodeGeneratorResponse_File :=
  { Name := some name, Content := some content }

/-- An environment for concrete runs: the default flags, a request with the
given parameter and targets on standard input, a registry whose operations all
succeed and which resolves every path to a descriptor (here the path itself),
a generator that answers `gen`, an encoder and a standard output that do not
fail. -/
def sampleEnv (param : Option String) (targets : List String)
    (gen : Except String (List plugin.CodeGeneratorResponse_File)) (http : Http) :
    Env Unit String Unit :=
  { flags := mainFlags
    openErr := fun _ => none
    ParseRequest := fun _ => .ok { FileToGenerate := targets, Parameter := param, ProtoFile := [] }
    newRegistry := ()
    SetPrefix := fun r _ => r
    SetAllowDeleteBody := fun r _ => r
    SetAllowMerge := fun r _ => r
    SetMergeFileName := fun r _ => r
    SetUseJSONNamesForFields := fun r _ => r
    SetAllowRepeatedFieldsInBody := fun r _ => r
    SetIncludePackageInTags := fun r _ => r
    SetUseFQNForSwaggerName := fun r _ => r
    SetRepeatedPathParamSeparator := fun r _ => .ok r
    AddPkgMaps := fun r _ => r
    LoadGrpcAPIServiceFromYAML := fun r _ => .ok r
    AddStreamError := fun reg => .ok reg
    Load := fun r _ => .ok r
    LookupFile := fun _ target => .ok target
    Generate := fun _ _ => gen
    marshalErr := fun _ => none
    writeErr := fun _ => none
    http := http }

/-- The environment `sampleEnv` with a generator whose answer shows what it was
called with: one file per descriptor it receives, in the order received, named
after the descriptor and with the descriptor as content. -/
def echoEnv (targets : List String) (http : Http) : Env Unit String Unit :=
  { sampleEnv none targets (.ok []) http with
    Generate := fun _ ds => .ok (ds.map fun d => genFile (d ++ ".swagger.json") d) }

/-! ## Lemmas on splitting -/

theorem strings.splitChars_of_not_mem (sep : Char) (s : List Char) (h : sep ∉ s) :
    strings.splitChars sep s = [s] := by
  induction s with
  | nil => rfl
  | cons c cs ih =>
    have hc : c ≠ sep := fun e => h (by simp [e])
    have hcs : sep ∉ cs := fun e => h (by simp [e])
    simp [strings.splitChars, hc, ih hcs]

theorem strings.cutChars_of_not_mem (sep : Char) (s : List Char) (h : sep ∉ s) :
    strings.cutChars sep s = none := by
  induction s with
  | nil => rfl
  | cons c cs ih =>
    have hc : c ≠ sep := fun e => h (by simp [e])
    have hcs : sep ∉ cs := fun e => h (by simp [e])
    simp [strings.cutChars, hc, ih hcs]

theorem strings.cutChars_append (sep : Char) (a b : List Char) (h : sep ∉ a) :
    strings.cutChars sep (a ++ sep :: b) = some (a, b) := by
  induction a with
  | nil => simp [strings.cutChars]
  | cons c cs ih =>
    have hc : c ≠ sep := fun e => h (by simp [e])
    have hcs : sep ∉ cs := fun e => h (by simp [e])
    simp [strings.cutChars, hc, ih hcs]

theorem strings.Split_of_not_mem (sep : Char) (s : String) (h : sep ∉ s.data) :
    strings.Split s sep = [s] := by
  simp [strings.Split, strings.splitChars_of_not_mem sep s.data h]

theorem strings.SplitN_two_of_not_mem (sep : Char) (s : String) (h : sep ∉ s.data) :
    strings.SplitN s sep 2 = [s] := by
  simp [strings.SplitN, strings.splitNChars, strings.cutChars_of_not_mem sep s.data h]

theorem strings.SplitN_two_append (sep : Char) (a b : String) (h : sep ∉ a.data) :
    strings.SplitN (a ++ String.singleton sep ++ b) sep 2 = [a, b] := by
  have hd : (a ++ String.singleton sep ++ b).data = a.data ++ sep :: b.data := by
    simp [String.data_append, String.singleton]
  simp [strings.SplitN, strings.splitNChars, hd, strings.cutChars_append sep _ _ h]

/-- A non-empty parameter string without a comma is one token: `parseReqParam`
runs the loop body once. -/
theorem parseReqParam_single (p : String) (f : flag.FlagSet) (pkgMap : PkgMap)
    (hne : p ≠ "") (hc : ',' ∉ p.data) :
    parseReqParam p f pkgMap = parseReqParamStep p f pkgMap := by
  simp only [parseReqParam, hne, if_false, strings.Split_of_not_mem ',' p hc, parseReqParamLoop]
  rcases parseReqParamStep p f pkgMap with ⟨f', m', _ | e⟩ <;> rfl

/-! ## The parameter resolver -/

/-- The tokens of a parameter string and the pieces of a token, on examples:
empty tokens are kept, a token is cut at its first `=` only. -/
theorem split_examples :
    strings.Split "allow_merge,a=b=c,,x" ',' = ["allow_merge", "a=b=c", "", "x"] ∧
    strings.SplitN "a=b=c" '=' 2 = ["a", "b=c"] ∧
    strings.SplitN "abc" '=' 2 = ["abc"] ∧
    strings.SplitN "=v" '=' 2 = ["", "v"] := by
  decide

/-- The loop body on a bare token (no `=`): the chain of comparisons with the
six switch names, applied to the token itself. -/
theorem parseReqParamStep_bare (n : String) (f : flag.FlagSet) (pkgMap : PkgMap)
    (h : '=' ∉ n.data) :
    parseReqParamStep n f pkgMap =
      if n = "allow_delete_body" then setFlag n n "true" f pkgMap
      else if n = "allow_merge" then setFlag n n "true" f pkgMap
      else if n = "allow_save" then setFlag n n "true" f pkgMap
      else if n = "wrap_code" then setFlag n n "true" f pkgMap
      else if n = "allow_repeated_fields_in_body" then setFlag n n "true" f pkgMap
      else if n = "include_package_in_tags" then setFlag n n "true" f pkgMap
      else setFlag n n "" f pkgMap := by
  simp only [parseReqParamStep, strings.SplitN_two_of_not_mem '=' n h]

/-- The loop body on a bare token that is one of the six switches: the flag of
that name is set to `"true"`. -/
theorem parseReqParamStep_switch (n : String) (f : flag.FlagSet) (pkgMap : PkgMap)
    (hn : n ∈ ["allow_delete_body", "allow_merge", "allow_save", "wrap_code",
      "allow_repeated_fields_in_body", "include_package_in_tags"]) :
    n ≠ "" ∧ ',' ∉ n.data ∧ parseReqParamStep n f pkgMap = setFlag n n "true" f pkgMap := by
  have heq : '=' ∉ n.data := by
    simp only [List.mem_cons, List.mem_singleton, List.not_mem_nil, or_false] at hn
    rcases hn with h | h | h | h | h | h <;> subst h <;> decide
  rw [parseReqParamStep_bare n f pkgMap heq]
  simp only [List.mem_cons, List.mem_singleton, List.not_mem_nil, or_false] at hn
  rcases hn with h | h | h | h | h | h <;> subst h <;>
    exact ⟨by decide, by decide, by simp⟩

/-- Setting a registered boolean flag to `"true"` succeeds. -/
theorem setFlag_bool_true (p n : String) (f : flag.FlagSet) (pkgMap : PkgMap) (b : Bool)
    (h : f.formal n = some (.boolValue b)) :
    setFlag p n "true" f pkgMap =
      ⟨{ f with formal := Function.update f.formal n (some (.boolValue true)),
                actual := Function.update f.actual n true }, pkgMap, none⟩ := by
  simp [setFlag, flag.FlagSet.Set, h, flag.Value.Set, strconv.ParseBool]

/-- C1: for each of the six bare switch names `n`, every flag set in which `n`
is registered as a boolean flag and every package map, `parseReqParam n`
returns no error, leaves flag `n` at `true` (and recorded as set), and leaves
every other flag and the package map unchanged. -/
theorem parseReqParam_bare_switch (n : String) (f : flag.FlagSet) (pkgMap : PkgMap) (b : Bool)
    (hn : n ∈ ["allow_delete_body", "allow_merge", "allow_save", "wrap_code",
      "allow_repeated_fields_in_body", "include_package_in_tags"])
    (hreg : f.formal n = some (.boolValue b)) :
    (parseReqParam n f pkgMap).err = none ∧
    (parseReqParam n f pkgMap).f.formal n = some (.boolValue true) ∧
    (∀ m, m ≠ n → (parseReqParam n f pkgMap).f.formal m = f.formal m) ∧
    (∀ m, m ≠ n → (parseReqParam n f pkgMap).f.actual m = f.actual m) ∧
    (parseReqParam n f pkgMap).pkgMap = pkgMap := by
  obtain ⟨hne, hc, hstep⟩ := parseReqParamStep_switch n f pkgMap hn
  rw [parseReqParam_single n f pkgMap hne hc, hstep, setFlag_bool_true n n f pkgMap b hreg]
  refine ⟨rfl, by simp, ?_, ?_, rfl⟩
  · intro m hm; simp [Function.update, hm]
  · intro m hm; simp [Function.update, hm]

/-- Witness of C1: the bare token `wrap_code` on the default flag set. -/
theorem parseReqParam_bare_switch_witness :
    mainFlags.formal "wrap_code" = some (.boolValue false) ∧
    (parseReqParam "wrap_code" mainFlags (fun _ => none)).err = none ∧
    (parseReqParam "wrap_code" mainFlags (fun _ => none)).f.formal "wrap_code" =
      some (.boolValue true) :=
  have h := parseReqParam_bare_switch "wrap_code" mainFlags (fun _ => none) false
    (by decide) (by decide)
  ⟨by decide, h.1, h.2.1⟩

/-- A keyed token `name=value` (no `=` in `name`, no comma at all) is one
non-empty token, and the loop body sees the pair `name`, `value`. -/
theorem keyed_token (name value : String) (hn : '=' ∉ name.data) (hnc : ',' ∉ name.data)
    (hvc : ',' ∉ value.data) :
    name ++ "=" ++ value ≠ "" ∧ ',' ∉ (name ++ "=" ++ value).data ∧
    strings.SplitN (name ++ "=" ++ value) '=' 2 = [name, value] := by
  have hd : (name ++ "=" ++ value).data = name.data ++ '=' :: value.data := by
    simp [String.data_append]
  refine ⟨?_, ?_, strings.SplitN_two_append '=' name value hn⟩
  · intro h
    have := congrArg String.data h
    rw [hd] at this
    simp at this
  · rw [hd]
    simp [hnc, hvc]

/-- C2: for every keyed token `name=value` whose name starts with `M`, every
flag set and every package map, `parseReqParam` on that single token returns
no error, leaves the flag set as it was (no flag is set), and leaves the
package map updated at the key `name` without its first character with
`value`; no other key changes. -/
theorem parseReqParam_package_map (name value : String) (f : flag.FlagSet) (pkgMap : PkgMap)
    (hn : '=' ∉ name.data) (hnc : ',' ∉ name.data) (hvc : ',' ∉ value.data)
    (hM : strings.HasPrefix name 'M' = true) :
    (parseReqParam (name ++ "=" ++ value) f pkgMap).err = none ∧
    (parseReqParam (name ++ "=" ++ value) f pkgMap).f = f ∧
    (parseReqParam (name ++ "=" ++ value) f pkgMap).pkgMap (sliceFrom1 name) = some value ∧
    (∀ k, k ≠ sliceFrom1 name →
      (parseReqParam (name ++ "=" ++ value) f pkgMap).pkgMap k = pkgMap k) := by
  obtain ⟨hne, hc, hs⟩ := keyed_token name value hn hnc hvc
  have hres : parseReqParam (name ++ "=" ++ value) f pkgMap =
      ⟨f, Function.update pkgMap (sliceFrom1 name) (some value), none⟩ := by
    rw [parseReqParam_single _ f pkgMap hne hc]
    simp only [parseReqParamStep, hs, hM, if_true]
  rw [hres]
  refine ⟨rfl, rfl, by simp, ?_⟩
  intro k hk
  simp [Function.update, hk]

/-- Witness of C2: the token `Mgoogle/api/a.proto=example.com/api` on the
default flag set and the empty package map. -/
theorem parseReqParam_package_map_witness :
    (parseReqParam "Mgoogle/api/a.proto=example.com/api" mainFlags (fun _ => none)).err = none ∧
    (parseReqParam "Mgoogle/api/a.proto=example.com/api" mainFlags (fun _ => none)).pkgMap
      "google/api/a.proto" = some "example.com/api" :=
  have h := parseReqParam_package_map "Mgoogle/api/a.proto" "example.com/api" mainFlags
    (fun _ => none) (by decide) (by decide) (by decide) (by decide)
  ⟨h.1, h.2.2.1⟩

/-- Setting a registered string flag succeeds with any value. -/
theorem setFlag_string (p n v old : String) (f : flag.FlagSet) (pkgMap : PkgMap)
    (h : f.formal n = some (.stringValue old)) :
    setFlag p n v f pkgMap =
      ⟨{ f with formal := Function.update f.formal n (some (.stringValue v)),
                actual := Function.update f.actual n true }, pkgMap, none⟩ := by
  simp [setFlag, flag.FlagSet.Set, h, flag.Value.Set]

/-- C4: for every comma-free token `name=value` where `name` has no `=`, does
not start with `M` and is a registered string flag, `parseReqParam` sets that
flag to exactly `value`, the text after the first `=` (further `=` in it are
kept), returns no error, and changes no other flag and no package-map
entry. -/
theorem parseReqParam_keyed_string (name value old : String) (f : flag.FlagSet)
    (pkgMap : PkgMap)
    (hn : '=' ∉ name.data) (hnc : ',' ∉ name.data) (hvc : ',' ∉ value.data)
    (hM : strings.HasPrefix name 'M' = false)
    (hreg : f.formal name = some (.stringValue old)) :
    (parseReqParam (name ++ "=" ++ value) f pkgMap).err = none ∧
    (parseReqParam (name ++ "=" ++ value) f pkgMap).f.formal name = some (.stringValue value) ∧
    (∀ m, m ≠ name → (parseReqParam (name ++ "=" ++ value) f pkgMap).f.formal m = f.formal m) ∧
    (∀ m, m ≠ name → (parseReqParam (name ++ "=" ++ value) f pkgMap).f.actual m = f.actual m) ∧
    (parseReqParam (name ++ "=" ++ value) f pkgMap).pkgMap = pkgMap := by
  obtain ⟨hne, hc, hs⟩ := keyed_token name value hn hnc hvc
  have hres : parseReqParam (name ++ "=" ++ value) f pkgMap =
      ⟨{ f with formal := Function.update f.formal name (some (.stringValue value)),
                actual := Function.update f.actual name true }, pkgMap, none⟩ := by
    rw [parseReqParam_single _ f pkgMap hne hc]
    simp only [parseReqParamStep, hs, hM, Bool.false_eq_true, if_false,
      setFlag_string _ name value old f pkgMap hreg]
  rw [hres]
  refine ⟨rfl, by simp, ?_, ?_, rfl⟩
  · intro m hm; simp [Function.update, hm]
  · intro m hm; simp [Function.update, hm]

/-- Witness of C4: the token `yapi_url=a=b` sets `yapi_url` to `a=b`. -/
theorem parseReqParam_keyed_string_witness :
    mainFlags.formal "yapi_url" = some (.stringValue "") ∧
    (parseReqParam "yapi_url=a=b" mainFlags (fun _ => none)).err = none ∧
    (parseReqParam "yapi_url=a=b" mainFlags (fun _ => none)).f.formal "yapi_url" =
      some (.stringValue "a=b") :=
  have h := parseReqParam_keyed_string "yapi_url" "a=b" "" mainFlags (fun _ => none)
    (by decide) (by decide) (by decide) (by decide) (by decide)
  ⟨by decide, h.1, h.2.1⟩

/-- Setting a registered boolean flag to the empty string fails with Go's
`parse error`, and the flag holds `false` afterwards. -/
theorem setFlag_bool_empty (p n : String) (f : flag.FlagSet) (pkgMap : PkgMap) (b : Bool)
    (h : f.formal n = some (.boolValue b)) :
    setFlag p n "" f pkgMap =
      ⟨{ f with formal := Function.update f.formal n (some (.boolValue false)) }, pkgMap,
        some (cannotSetFlag p "parse error")⟩ := by
  simp [setFlag, flag.FlagSet.Set, h, flag.Value.Set, strconv.ParseBool]

/-- C3, as the code has it: for every non-empty bare token `n` (no `=`) other
than the six switches, if `n` is a registered string flag then
`parseReqParam n` returns no error and leaves flag `n` at the empty string,
other flags and the package map unchanged; if `n` is a registered boolean flag
then `parseReqParam n` returns the error `Cannot set flag n: parse error`
(the flag then holds `false`). -/
theorem parseReqParam_bare_other (n : String) (f : flag.FlagSet) (pkgMap : PkgMap)
    (hne : n ≠ "") (heq : '=' ∉ n.data) (hc : ',' ∉ n.data)
    (hsix : n ∉ ["allow_delete_body", "allow_merge", "allow_save", "wrap_code",
      "allow_repeated_fields_in_body", "include_package_in_tags"]) :
    (∀ old, f.formal n = some (.stringValue old) →
      (parseReqParam n f pkgMap).err = none ∧
      (parseReqParam n f pkgMap).f.formal n = some (.stringValue "") ∧
      (∀ m, m ≠ n → (parseReqParam n f pkgMap).f.formal m = f.formal m) ∧
      (parseReqParam n f pkgMap).pkgMap = pkgMap) ∧
    (∀ b, f.formal n = some (.boolValue b) →
      (parseReqParam n f pkgMap).err = some ("Cannot set flag " ++ n ++ ": parse error") ∧
      (parseReqParam n f pkgMap).f.formal n = some (.boolValue false) ∧
      (∀ m, m ≠ n → (parseReqParam n f pkgMap).f.formal m = f.formal m) ∧
      (parseReqParam n f pkgMap).pkgMap = pkgMap) := by
  simp only [List.mem_cons, List.mem_singleton, List.not_mem_nil, or_false, not_or] at hsix
  obtain ⟨h1, h2, h3, h4, h5, h6⟩ := hsix
  have hstep : parseReqParam n f pkgMap = setFlag n n "" f pkgMap := by
    rw [parseReqParam_single n f pkgMap hne hc, parseReqParamStep_bare n f pkgMap heq]
    simp only [h1, h2, h3, h4, h5, h6, if_false]
  rw [hstep]
  constructor
  · intro old hreg
    rw [setFlag_string n n "" old f pkgMap hreg]
    refine ⟨rfl, by simp, ?_, rfl⟩
    intro m hm; simp [Function.update, hm]
  · intro b hreg
    rw [setFlag_bool_empty n n f pkgMap b hreg]
    refine ⟨?_, by simp, ?_, rfl⟩
    · show some (cannotSetFlag n "parse error") = _
      rw [cannotSetFlag, String.append_assoc _ ": " "parse error"]
      rfl
    intro m hm; simp [Function.update, hm]

/-- Witness of C3 as amended: the bare token `merge_file_name` empties that
string flag, whose default is `apidocs`. -/
theorem parseReqParam_bare_other_witness :
    mainFlags.formal "merge_file_name" = some (.stringValue "apidocs") ∧
    (parseReqParam "merge_file_name" mainFlags (fun _ => none)).err = none ∧
    (parseReqParam "merge_file_name" mainFlags (fun _ => none)).f.formal "merge_file_name" =
      some (.stringValue "") :=
  have h := (parseReqParam_bare_other "merge_file_name" mainFlags (fun _ => none)
    (by decide) (by decide) (by decide) (by decide)).1 "apidocs" (by decide)
  ⟨by decide, h.1, h.2.1⟩

/-- Counterexample to C3 as stated: `json_names_for_fields` is a registered
boolean flag outside the six switches, and the bare token of that name makes
`parseReqParam` return an error. -/
theorem parseReqParam_bare_bool_fails :
    mainFlags.formal "json_names_for_fields" = some (.boolValue false) ∧
    "json_names_for_fields" ∉ ["allow_delete_body", "allow_merge", "allow_save", "wrap_code",
      "allow_repeated_fields_in_body", "include_package_in_tags"] ∧
    (parseReqParam "json_names_for_fields" mainFlags (fun _ => none)).err =
      some "Cannot set flag json_names_for_fields: parse error" := by
  decide

/-! ## Failure in the middle of a parameter string -/

/-- A failing `f.Set` inside the loop body: the error is the wrapped cause; the
package map, the record of set flags and the value of every other flag are
untouched; the named flag is unregistered and stays so, or is a boolean flag
and holds `false`, or is of another type and holds what its own `Set` stored;
it is not a string flag. -/
theorem setFlag_fails (p n v : String) (f : flag.FlagSet) (pkgMap : PkgMap)
    (h : (setFlag p n v f pkgMap).err ≠ none) :
    (∃ cause, (setFlag p n v f pkgMap).err = some ("Cannot set flag " ++ p ++ ": " ++ cause)) ∧
    (setFlag p n v f pkgMap).pkgMap = pkgMap ∧
    (setFlag p n v f pkgMap).f.actual = f.actual ∧
    (∀ m, m ≠ n → (setFlag p n v f pkgMap).f.formal m = f.formal m) ∧
    (f.formal n = none → (setFlag p n v f pkgMap).f.formal n = none) ∧
    (∀ b, f.formal n = some (.boolValue b) →
      (setFlag p n v f pkgMap).f.formal n = some (.boolValue false)) ∧
    (∀ st, f.formal n = some (.otherValue st) →
      (setFlag p n v f pkgMap).f.formal n = some (.otherValue (f.setOther n st v).1)) ∧
    (∀ s, f.formal n ≠ some (.stringValue s)) := by
  cases hf : f.formal n with
  | none =>
    have hres : setFlag p n v f pkgMap =
        ⟨f, pkgMap, some (cannotSetFlag p ("no such flag -" ++ n))⟩ := by
      simp [setFlag, flag.FlagSet.Set, hf]
    rw [hres]
    refine ⟨⟨_, rfl⟩, rfl, rfl, fun m _ => rfl, fun _ => hf, ?_, ?_, ?_⟩
    · intro b hb; simp at hb
    · intro st hs; simp at hs
    · intro s hs; simp at hs
  | some val =>
    cases val with
    | stringValue old => simp [setFlag, flag.FlagSet.Set, hf, flag.Value.Set] at h
    | boolValue b =>
      cases hp : strconv.ParseBool v with
      | some b' => simp [setFlag, flag.FlagSet.Set, hf, flag.Value.Set, hp] at h
      | none =>
        have hres : setFlag p n v f pkgMap =
            ⟨{ f with formal := Function.update f.formal n (some (.boolValue false)) }, pkgMap,
              some (cannotSetFlag p "parse error")⟩ := by
          simp [setFlag, flag.FlagSet.Set, hf, flag.Value.Set, hp]
        rw [hres]
        refine ⟨⟨_, rfl⟩, rfl, rfl, ?_, ?_, ?_, ?_, ?_⟩
        · intro m hm; simp [Function.update, hm]
        · intro hn; simp at hn
        · intro b1 _; simp
        · intro st hs; simp at hs
        · intro s hs; simp at hs
    | otherValue st =>
      cases he : (f.setOther n st v).2 with
      | none => simp [setFlag, flag.FlagSet.Set, hf, flag.Value.Set, he] at h
      | some e =>
        have hres : setFlag p n v f pkgMap =
            ⟨{ f with
                formal := Function.update f.formal n (some (.otherValue (f.setOther n st v).1)) },
              pkgMap, some (cannotSetFlag p e)⟩ := by
          simp [setFlag, flag.FlagSet.Set, hf, flag.Value.Set, he]
        rw [hres]
        refine ⟨⟨_, rfl⟩, rfl, rfl, ?_, ?_, ?_, ?_, ?_⟩
        · intro m hm; simp [Function.update, hm]
        · intro hn; simp at hn
        · intro b hs; simp at hs
        · intro st' hst
          have hst' : st = st' := by simpa using hst
          subst hst'
          simp
        · intro s hs; simp at hs

/-- `strings.SplitN(p, "=", 2)` has one piece or two. -/
theorem strings.SplitN_two_ne_nil (s : String) (sep : Char) : strings.SplitN s sep 2 ≠ [] := by
  unfold strings.SplitN strings.splitNChars
  cases strings.cutChars sep s.data with
  | none => simp
  | some ab => simp

/-- A failing loop body is a failing `f.Set` of the token's name to the token's
value. -/
theorem parseReqParamStep_fails (p : String) (f : flag.FlagSet) (pkgMap : PkgMap)
    (h : (parseReqParamStep p f pkgMap).err ≠ none) :
    parseReqParamStep p f pkgMap = setFlag p (tokenName p) (tokenValue p) f pkgMap := by
  have hnil := strings.SplitN_two_ne_nil p '='
  unfold parseReqParamStep tokenName tokenValue at *
  rcases hs : strings.SplitN p '=' 2 with _ | ⟨s0, _ | ⟨value, rest⟩⟩
  · exact absurd hs hnil
  · rw [hs] at h
    simp only [List.headD_cons] at h ⊢
    split_ifs at h ⊢ <;> first | rfl | simp_all
  · rw [hs] at h
    simp only [List.headD_cons] at h ⊢
    split_ifs at h ⊢
    · exact absurd rfl h
    · rfl

/-- The loop on a list of tokens that ends with a failing token after a list of
tokens that succeed: the result is that of the failing loop body on the state
left by the tokens before it, whatever follows. -/
theorem parseReqParamLoop_first_failure (pre post : List String) (ti : String)
    (f : flag.FlagSet) (pkgMap : PkgMap)
    (hpre : (parseReqParamLoop pre f pkgMap).err = none)
    (hti : (parseReqParamStep ti (parseReqParamLoop pre f pkgMap).f
      (parseReqParamLoop pre f pkgMap).pkgMap).err ≠ none) :
    parseReqParamLoop (pre ++ ti :: post) f pkgMap =
      parseReqParamStep ti (parseReqParamLoop pre f pkgMap).f
        (parseReqParamLoop pre f pkgMap).pkgMap := by
  induction pre generalizing f pkgMap with
  | nil =>
    simp only [parseReqParamLoop, List.nil_append] at hti ⊢
    rcases hstep : parseReqParamStep ti f pkgMap with ⟨f', m', _ | e⟩
    · rw [hstep] at hti; exact absurd rfl hti
    · rfl
  | cons p ps ih =>
    simp only [parseReqParamLoop, List.cons_append] at hpre hti ⊢
    rcases hstep : parseReqParamStep p f pkgMap with ⟨f', m', _ | e⟩
    · rw [hstep] at hpre hti
      simp only at hpre hti ⊢
      exact ih f' m' hpre hti
    · rw [hstep] at hpre
      simp at hpre

/-- C10, as the code has it: when the comma-separated tokens of a parameter
string are `pre`, then `ti`, then `post`, every token of `pre` applies without
error and `ti` is the first token on which setting the flag fails,
`parseReqParam` returns the error `Cannot set flag <ti>: <cause>`; the package
map, the record of set flags and the value of every flag other than the one
named by `ti` are those left by `pre` (nothing is rolled back); the flag named
by `ti` holds what its own failed `Set` stored: an unregistered name stays
unregistered, a boolean flag whose value was rejected holds `false` whatever
it held before, a flag of another type holds the state its `Set` method left
(a string flag never fails); nothing of `post` is applied (the result does
not depend on it). -/
theorem parseReqParam_first_failure (param : String) (pre post : List String) (ti : String)
    (f : flag.FlagSet) (pkgMap : PkgMap)
    (hne : param ≠ "")
    (hsplit : strings.Split param ',' = pre ++ ti :: post)
    (hpre : (parseReqParamLoop pre f pkgMap).err = none)
    (hti : (parseReqParamStep ti (parseReqParamLoop pre f pkgMap).f
      (parseReqParamLoop pre f pkgMap).pkgMap).err ≠ none) :
    (∃ cause,
      (parseReqParam param f pkgMap).err = some ("Cannot set flag " ++ ti ++ ": " ++ cause)) ∧
    (parseReqParam param f pkgMap).pkgMap = (parseReqParamLoop pre f pkgMap).pkgMap ∧
    (parseReqParam param f pkgMap).f.actual = (parseReqParamLoop pre f pkgMap).f.actual ∧
    (∀ m, m ≠ tokenName ti →
      (parseReqParam param f pkgMap).f.formal m = (parseReqParamLoop pre f pkgMap).f.formal m) ∧
    ((parseReqParamLoop pre f pkgMap).f.formal (tokenName ti) = none →
      (parseReqParam param f pkgMap).f.formal (tokenName ti) = none) ∧
    (∀ b, (parseReqParamLoop pre f pkgMap).f.formal (tokenName ti) = some (.boolValue b) →
      (parseReqParam param f pkgMap).f.formal (tokenName ti) = some (.boolValue false)) ∧
    (∀ st, (parseReqParamLoop pre f pkgMap).f.formal (tokenName ti) = some (.otherValue st) →
      (parseReqParam param f pkgMap).f.formal (tokenName ti) =
        some (.otherValue ((parseReqParamLoop pre f pkgMap).f.setOther (tokenName ti) st
          (tokenValue ti)).1)) ∧
    (∀ s, (parseReqParamLoop pre f pkgMap).f.formal (tokenName ti) ≠ some (.stringValue s)) := by
  have hres : parseReqParam param f pkgMap =
      setFlag ti (tokenName ti) (tokenValue ti) (parseReqParamLoop pre f pkgMap).f
        (parseReqParamLoop pre f pkgMap).pkgMap := by
    simp only [parseReqParam, hne, if_false, hsplit]
    rw [parseReqParamLoop_first_failure pre post ti f pkgMap hpre hti]
    exact parseReqParamStep_fails ti _ _ hti
  rw [hres]
  apply setFlag_fails
  rw [← parseReqParamStep_fails ti _ _ hti]
  exact hti

/-- Witness of C10 as amended: in `allow_merge,allow_merge=x,wrap_code` the
first token sets `allow_merge` to `true`, the second is rejected by that
boolean flag and leaves it `false`, the third is never applied. -/
theorem parseReqParam_first_failure_witness :
    (parseReqParamLoop ["allow_merge"] mainFlags (fun _ => none)).f.formal "allow_merge" =
      some (.boolValue true) ∧
    (parseReqParam "allow_merge,allow_merge=x,wrap_code" mainFlags (fun _ => none)).f.formal
      "allow_merge" = some (.boolValue false) ∧
    (parseReqParam "allow_merge,allow_merge=x,wrap_code" mainFlags (fun _ => none)).f.formal
      "wrap_code" = some (.boolValue false) ∧
    ∃ cause, (parseReqParam "allow_merge,allow_merge=x,wrap_code" mainFlags
      (fun _ => none)).err = some ("Cannot set flag " ++ "allow_merge=x" ++ ": " ++ cause) :=
  have h := parseReqParam_first_failure "allow_merge,allow_merge=x,wrap_code" ["allow_merge"]
    ["wrap_code"] "allow_merge=x" mainFlags (fun _ => none) (by decide) (by decide) (by decide)
    (by decide)
  ⟨by decide, h.2.2.2.2.2.1 true (by decide),
    (h.2.2.2.1 "wrap_code" (by decide)).trans (by decide), h.1⟩

/-- Counterexample to C10 as stated: in `allow_merge,allow_merge=x` the second
token is the first that fails, and the flag set after the call is not the one
left by the first token: `allow_merge` was `true` after the first token and is
`false` after the failed second one. -/
theorem parseReqParam_failure_resets_bool :
    strings.Split "allow_merge,allow_merge=x" ',' = ["allow_merge", "allow_merge=x"] ∧
    (parseReqParamLoop ["allow_merge"] mainFlags (fun _ => none)).err = none ∧
    (parseReqParamLoop ["allow_merge"] mainFlags (fun _ => none)).f.formal "allow_merge" =
      some (.boolValue true) ∧
    (parseReqParam "allow_merge,allow_merge=x" mainFlags (fun _ => none)).err =
      some "Cannot set flag allow_merge=x: parse error" ∧
    (parseReqParam "allow_merge,allow_merge=x" mainFlags (fun _ => none)).f.formal
      "allow_merge" = some (.boolValue false) := by
  decide

/-! ## The publish step -/

/-- With an empty token or an empty merge mode `sendYAPI` is a no-op: no
request is sent and it returns. -/
theorem sendYAPI_noop {Reg : Type} (http : Http) (out : List plugin.CodeGeneratorResponse_File)
    (reg : genswagger.SRegistry Reg) (h : reg.YAPIToken = "" ∨ reg.YAPIMerge = "") :
    sendYAPI http out reg = ⟨[], false⟩ := by
  unfold sendYAPI
  rcases h with h | h <;> simp [h]

/-- C5, the code at the failing input: with schema `http`, an empty URL, a
non-empty token and merge mode and one generated file, the guard of `sendYAPI`
does not fire (the address it tests is never empty) and, whatever the client
answers, exactly one POST to `http:///api/open/import_data` is handed to
`client.Do`. -/
theorem sendYAPI_empty_url_posts (answer : Nat → HttpRequest → DoResult) :
    (sendYAPI ⟨fun _ => none, answer⟩ [genFile "a.swagger.json" "{}"]
      (yapiRegistry "http" "" "tok" "merge")).posts =
      [{ Method := "POST", URL := "http:///api/open/import_data",
         ContentType := "application/x-www-form-urlencoded",
         type := "swagger", token := "tok", merge := "merge", json := "{}" }] := by
  have haddr : "http" ++ "://" ++ "" ++ "/api/open/import_data" =
      "http:///api/open/import_data" := by decide
  simp only [sendYAPI, yapiRegistry, haddr, genFile, sendYAPILoop]
  rw [if_neg (by decide)]
  split <;> rfl

/-- C6, the code at the failing input: with a complete publish configuration
and two generated files, when the transport fails on the first request
(`client.Do` returns a nil response and an error), `sendYAPI` has sent the
first request only and ends in a panic; the request for the second file is
never attempted. -/
theorem sendYAPI_first_failure_panics :
    sendYAPI httpFirstDown [genFile "a.swagger.json" "A", genFile "b.swagger.json" "B"]
      (yapiRegistry "http" "yapi.example.com" "tok" "merge") =
      ⟨[{ Method := "POST", URL := "http://yapi.example.com/api/open/import_data",
          ContentType := "application/x-www-form-urlencoded",
          type := "swagger", token := "tok", merge := "merge", json := "A" }], true⟩ := by
  decide

/-- When every request is answered, the same two files give two requests in
list order, each with its own content, and `sendYAPI` returns. -/
theorem sendYAPI_all_answered :
    sendYAPI httpUp [genFile "a.swagger.json" "A", genFile "b.swagger.json" "B"]
      (yapiRegistry "http" "yapi.example.com" "tok" "merge") =
      ⟨[{ Method := "POST", URL := "http://yapi.example.com/api/open/import_data",
          ContentType := "application/x-www-form-urlencoded",
          type := "swagger", token := "tok", merge := "merge", json := "A" },
        { Method := "POST", URL := "http://yapi.example.com/api/open/import_data",
          ContentType := "application/x-www-form-urlencoded",
          type := "swagger", token := "tok", merge := "merge", json := "B" }], false⟩ := by
  decide

/-! ## The orchestrator -/

section
variable {Reg Desc Proto : Type}

/-- Whatever happens to it afterwards, `emitResp` was handed exactly the
envelope `resp`, and the record of generator calls is kept. -/
theorem emitResp_emitted (env : Env Reg Desc Proto) (generated : List (List Desc))
    (resp : plugin.CodeGeneratorResponse) (k : SendResult) :
    (emitResp env generated resp k).emitted = [resp] ∧
    (emitResp env generated resp k).generated = generated := by
  unfold emitResp
  cases env.marshalErr resp <;> cases env.writeErr resp <;> exact ⟨rfl, rfl⟩

/-- A run that `mainSetup` ends handed nothing to `emitResp`, or one envelope
made by `emitError`; the generator was not called. -/
theorem mainSetup_error (env : Env Reg Desc Proto) (run : Run Desc)
    (h : mainSetup env = .error run) :
    (run.emitted = [] ∨ ∃ msg, run.emitted = [⟨some msg, []⟩]) ∧ run.generated = [] := by
  have hE : ∀ err, ((emitError env [] err).emitted = [] ∨
      ∃ msg, (emitError env [] err).emitted = [⟨some msg, []⟩]) ∧
      (emitError env ([] : List (List Desc)) err).generated = [] := fun err =>
    ⟨Or.inr ⟨err, (emitResp_emitted env [] _ _).1⟩, (emitResp_emitted env [] _ _).2⟩
  unfold mainSetup at h
  split at h
  · rename_i r hr
    injection h with h
    subst h
    unfold readRequest at hr
    split_ifs at hr
    · injection hr with hr; subst hr; exact ⟨Or.inl rfl, rfl⟩
    · dsimp only at hr
      split at hr
      · injection hr with hr; subst hr; exact ⟨Or.inl rfl, rfl⟩
      · split at hr
        · injection hr with hr; subst hr; exact ⟨Or.inl rfl, rfl⟩
        · cases hr
  · split at h
    · rename_i r hr
      injection h with h
      subst h
      unfold resolveParam at hr
      split at hr
      · cases hr
      · dsimp only at hr
        split at hr
        · injection hr with hr; subst hr; exact ⟨Or.inl rfl, rfl⟩
        · cases hr
    · split at h
      · rename_i r hr
        injection h with h
        subst h
        unfold configure at hr
        simp only at hr
        split at hr
        · injection hr with hr; subst hr; exact hE _
        · split at hr
          · injection hr with hr; subst hr; exact hE _
          · split at hr
            · injection hr with hr; subst hr; exact hE _
            · split at hr
              · injection hr with hr; subst hr; exact hE _
              · cases hr
      · cases h

/-- C7, as the code has it: every response envelope that `main` hands to
`emitResp` is either an error message with no output files (from `emitError`)
or, with no error, exactly the files the generator returned (from
`emitFiles`); so the two parts are never both set, and exactly one of them is
set unless the generator succeeded with zero files. -/
theorem main_emitted_shape (env : Env Reg Desc Proto) :
    ∀ resp ∈ (main env).emitted,
      ((∃ msg, resp.Error = some msg) ∧ resp.File = []) ∨
      (resp.Error = none ∧ ∃ reg targets, env.Generate reg targets = .ok resp.File) := by
  intro resp hresp
  unfold main at hresp
  split at hresp
  · rename_i run hrun
    rcases (mainSetup_error env run hrun).1 with h | ⟨msg, h⟩
    · rw [h] at hresp; simp at hresp
    · rw [h] at hresp
      simp only [List.mem_singleton] at hresp
      subst hresp
      exact Or.inl ⟨⟨msg, rfl⟩, rfl⟩
  · rename_i req reg hsetup
    unfold mainGenerate at hresp
    split at hresp
    · simp [Run.fatal] at hresp
    · rename_i targets htargets
      split at hresp
      · rename_i err hgen
        rw [emitError, (emitResp_emitted env _ _ _).1] at hresp
        simp only [List.mem_singleton] at hresp
        subst hresp
        exact Or.inl ⟨⟨err, rfl⟩, rfl⟩
      · rename_i out hgen
        rw [emitFiles, (emitResp_emitted env _ _ _).1] at hresp
        simp only [List.mem_singleton] at hresp
        subst hresp
        exact Or.inr ⟨rfl, reg, targets, hgen⟩

end

/-- Witness of C7 as amended: on a successful run the one envelope handed to
`emitResp` carries the generator's file and no error. -/
theorem main_emitted_shape_witness :
    { Error := none, File := [genFile "a.swagger.json" "{}"] } ∈
      (main (sampleEnv none ["a.proto"] (.ok [genFile "a.swagger.json" "{}"]) httpUp)).emitted ∧
    ∃ reg targets, (sampleEnv none ["a.proto"] (.ok [genFile "a.swagger.json" "{}"])
      httpUp).Generate reg targets = .ok [genFile "a.swagger.json" "{}"] :=
  have h := main_emitted_shape
    (sampleEnv none ["a.proto"] (.ok [genFile "a.swagger.json" "{}"]) httpUp)
    { Error := none, File := [genFile "a.swagger.json" "{}"] } (by decide)
  ⟨by decide, h.elim (fun h1 => absurd h1.1 (by simp)) (fun h2 => h2.2)⟩

/-- Counterexample to C7 as stated: when the generator succeeds with zero
output files, `main` hands `emitResp` an envelope with neither part set. -/
theorem main_emits_empty_envelope :
    (main (sampleEnv none ["a.proto"] (.ok []) httpUp)).emitted =
      [{ Error := none, File := [] }] := by
  decide

section
variable {Reg Desc Proto : Type}

/-- When every target resolves, the target loop returns one descriptor per
target, in the order of the targets: the `i`-th descriptor is the lookup of the
`i`-th target. -/
theorem lookupTargets_ok (env : Env Reg Desc Proto) (reg : Reg) (targets : List String)
    (h : ∀ t ∈ targets, ∃ d, env.LookupFile reg t = .ok d) :
    ∃ ds, lookupTargets env reg targets = .ok ds ∧ ds.length = targets.length ∧
      ∀ i : Nat, (targets[i]?).map (env.LookupFile reg) = (ds[i]?).map Except.ok := by
  induction targets with
  | nil => exact ⟨[], rfl, rfl, fun i => by simp⟩
  | cons t ts ih =>
    obtain ⟨d, hd⟩ := h t (by simp)
    obtain ⟨ds, hds, hlen, hget⟩ := ih (fun u hu => h u (by simp [hu]))
    refine ⟨d :: ds, by simp [lookupTargets, hd, hds], by simp [hlen], fun i => ?_⟩
    cases i with
    | zero => simp [hd]
    | succ j => simpa using hget j

/-- C8: for every request that `main` gets as far as resolving (`mainSetup`
hands on the request `req` and the loaded registry `reg`) and whose target
paths all resolve in that registry, `main` calls the generator exactly once,
with a descriptor list of the same length as `req.FileToGenerate` whose `i`-th
element is the registry lookup of the `i`-th target path: the one recorded call
has that list as argument, and the rest of the run is what `main` does with
the answer of `env.Generate` on `reg` and exactly that list (its error is
emitted, or its files are emitted and published). -/
theorem main_generates_once (env : Env Reg Desc Proto)
    (req : plugin.CodeGeneratorRequest Proto) (reg : genswagger.SRegistry Reg)
    (hsetup : mainSetup env = .ok (req, reg))
    (hres : ∀ t ∈ req.FileToGenerate, ∃ d, env.LookupFile reg.Registry t = .ok d) :
    ∃ targets, (main env).generated = [targets] ∧
      targets.length = req.FileToGenerate.length ∧
      (∀ i : Nat, (req.FileToGenerate[i]?).map (env.LookupFile reg.Registry) =
        (targets[i]?).map Except.ok) ∧
      main env =
        (match env.Generate reg targets with
         | .error err => emitError env [targets] err
         | .ok out => emitFiles env [targets] out (sendYAPI env.http out reg)) ∧
      (main env).emitted =
        [match env.Generate reg targets with
         | .error err => { Error := some err, File := [] }
         | .ok out => { Error := none, File := out }] := by
  obtain ⟨ds, hds, hlen, hget⟩ := lookupTargets_ok env reg.Registry req.FileToGenerate hres
  have hmain : main env =
      (match env.Generate reg ds with
       | .error err => emitError env [ds] err
       | .ok out => emitFiles env [ds] out (sendYAPI env.http out reg)) := by
    simp only [main, hsetup, mainGenerate, hds]
  refine ⟨ds, ?_, hlen, hget, hmain, ?_⟩
  · rw [hmain]
    cases env.Generate reg ds with
    | error err => exact (emitResp_emitted env _ _ _).2
    | ok out => exact (emitResp_emitted env _ _ _).2
  · rw [hmain]
    cases env.Generate reg ds with
    | error err => exact (emitResp_emitted env _ _ _).1
    | ok out => exact (emitResp_emitted env _ _ _).1

/-- C9, as the code has it: when the request was read and its parameter string
makes `parseReqParam` return an error, `main` ends in
`glog.Fatalf("Error parsing flags: ...")`: the process does not exit with
status 0, nothing is written to standard output, no envelope is handed to
`emitResp`, the generator is not called and nothing is published. -/
theorem main_parse_error_is_fatal (env : Env Reg Desc Proto)
    (req : plugin.CodeGeneratorRequest Proto) (param err : String)
    (hread : readRequest env = .ok req)
    (hparam : req.Parameter = some param)
    (herr : (parseReqParam param env.flags (fun _ => none)).err = some err) :
    (main env).exit = .fatal ("Error parsing flags: " ++ err ++ ", " ++ param) ∧
    (main env).exit.clean = false ∧
    (main env).stdout = [] ∧
    (main env).emitted = [] ∧
    (main env).generated = [] ∧
    (main env).posts = [] := by
  have hmain : main env = Run.fatal ("Error parsing flags: " ++ err ++ ", " ++ param) := by
    simp only [main, mainSetup, hread, resolveParam, hparam, herr]
  rw [hmain]
  exact ⟨rfl, rfl, rfl, rfl, rfl, rfl⟩

end

/-- Witness of C8: with a generator that answers one file per descriptor it
receives, the targets `a.proto`, `b.proto` reach it in one call and in that
order, and its answer for exactly that list is what is emitted. -/
theorem main_generates_once_witness :
    (main (echoEnv ["a.proto", "b.proto"] httpUp)).generated = [["a.proto", "b.proto"]] ∧
    (main (echoEnv ["a.proto", "b.proto"] httpUp)).emitted =
      [{ Error := none,
         File := [genFile "a.proto.swagger.json" "a.proto",
                  genFile "b.proto.swagger.json" "b.proto"] }] ∧
    ∃ targets, (main (echoEnv ["a.proto", "b.proto"] httpUp)).generated = [targets] ∧
      targets.length = 2 ∧
      (main (echoEnv ["a.proto", "b.proto"] httpUp)).emitted =
        [match (echoEnv ["a.proto", "b.proto"] httpUp).Generate (yapiRegistry "" "" "" "")
            targets with
         | .error err => { Error := some err, File := [] }
         | .ok out => { Error := none, File := out }] :=
  have h := main_generates_once (echoEnv ["a.proto", "b.proto"] httpUp)
    { FileToGenerate := ["a.proto", "b.proto"], Parameter := none, ProtoFile := [] }
    (yapiRegistry "" "" "" "") rfl (fun t _ => ⟨t, rfl⟩)
  ⟨by decide, by decide, h.elim fun targets ht => ⟨targets, ht.1, ht.2.1, ht.2.2.2.2⟩⟩

/-- Witness of C9 as amended: the parameter `bogus` names no flag. -/
theorem main_parse_error_is_fatal_witness :
    (parseReqParam "bogus" mainFlags (fun _ => none)).err =
      some "Cannot set flag bogus: no such flag -bogus" ∧
    (main (sampleEnv (some "bogus") ["a.proto"] (.ok [genFile "a.swagger.json" "{}"])
      httpUp)).exit =
      .fatal ("Error parsing flags: " ++ "Cannot set flag bogus: no such flag -bogus" ++ ", " ++
        "bogus") :=
  have h := main_parse_error_is_fatal
    (sampleEnv (some "bogus") ["a.proto"] (.ok [genFile "a.swagger.json" "{}"]) httpUp)
    { FileToGenerate := ["a.proto"], Parameter := some "bogus", ProtoFile := [] }
    "bogus" "Cannot set flag bogus: no such flag -bogus" rfl rfl (by decide)
  ⟨by decide, h.1⟩

/-- Counterexample to C9 as stated: on a request whose parameter `bogus` makes
`parseReqParam` fail, `main` writes no response envelope and the process does
not exit with status 0. -/
theorem main_parse_error_no_envelope :
    (parseReqParam "bogus" mainFlags (fun _ => none)).err ≠ none ∧
    (main (sampleEnv (some "bogus") ["a.proto"] (.ok [genFile "a.swagger.json" "{}"])
      httpUp)).stdout = [] ∧
    (main (sampleEnv (some "bogus") ["a.proto"] (.ok [genFile "a.swagger.json" "{}"])
      httpUp)).emitted = [] ∧
    (main (sampleEnv (some "bogus") ["a.proto"] (.ok [genFile "a.swagger.json" "{}"])
      httpUp)).exit.clean = false := by
  decide

end ProtocGenSwagger
